import Mathlib

/- Shallow embedding of the vrsc-arb arbitrage system core, for checking the
   natural-language specification against the implementation.

   Modelling conventions:
   - Decimal.js values are modelled as exact rationals (the library is
     arbitrary-precision; the quantities in all claims are small decimal
     literals that the library represents exactly).
   - JS `Map` objects keyed by strings are modelled as association lists keyed
     by `List Char`, with JS string concatenation as list append and
     `String.startsWith` as `List.isPrefixOf`.
   - `Date.now()` timestamps are naturals passed explicitly to each operation.
   - Injected collaborators (order manager, price feed, balance query) are
     oracle records of pure functions; a JS call that may throw is modelled as
     an `Option`/branch result. -/

set_option linter.unusedVariables false

abbrev Str := List Char

/-- `Decimal.max` on two arguments. -/
def dMax (a b : ℚ) : ℚ := if a ≤ b then b else a

/-- `Decimal.min` on two arguments. -/
def dMin (a b : ℚ) : ℚ := if a ≤ b then a else b

/-- `Decimal.abs`. -/
def dAbs (a : ℚ) : ℚ := if a < 0 then -a else a

def lowerStr (s : Str) : Str := s.map Char.toLower

def upperStr (s : Str) : Str := s.map Char.toUpper

/-- Association-list lookup, modelling `Map.get`. -/
def mapGet {α : Type} (k : Str) : List (Str × α) → Option α
  | [] => none
  | (k', v) :: rest => if k' = k then some v else mapGet k rest

/-- Association-list update, modelling `Map.set`: overwrite in place if the key
is present, else append at the end (JS Map preserves insertion order). -/
def mapSet {α : Type} (k : Str) (v : α) : List (Str × α) → List (Str × α)
  | [] => [(k, v)]
  | (k', v') :: rest => if k' = k then (k, v) :: rest else (k', v') :: mapSet k v rest

/-- Association-list removal, modelling `Map.delete`. -/
def mapDel {α : Type} (k : Str) (l : List (Str × α)) : List (Str × α) :=
  l.filter (fun p => ¬ (p.1 = k))

namespace CircuitBreaker

/- Source: unnamed/part_002, class CircuitBreaker. -/

inductive BState where
  | closed
  | opened
  | halfOpen
  deriving DecidableEq, Repr

structure Config where
  failureThreshold : Nat := 5
  resetTimeout : Nat := 60000
  deriving DecidableEq, Repr

def defaultCfg : Config := {}

/-- One per-name monitor as created by `_getMonitor`. -/
structure Monitor where
  failures : Nat
  state : BState
  lastFailure : Nat
  consecutiveSuccesses : Nat
  deriving DecidableEq, Repr

def initMonitor : Monitor := ⟨0, .closed, 0, 0⟩

/-- `_transitionToOpen` (state mutation only; logging and events omitted). -/
def transitionToOpen (m : Monitor) : Monitor := { m with state := .opened }

/-- `_transitionToHalfOpen`. -/
def transitionToHalfOpen (m : Monitor) : Monitor :=
  { m with state := .halfOpen, consecutiveSuccesses := 0 }

/-- `_transitionToClosed`. -/
def transitionToClosed (m : Monitor) : Monitor :=
  { m with state := .closed, failures := 0, consecutiveSuccesses := 0 }

/-- `isOpen(name)`: returns whether calls are short-circuited and the updated
monitor (the call mutates the monitor when the reset timeout has elapsed). -/
def isOpen (cfg : Config) (now : Nat) (m : Monitor) : Bool × Monitor :=
  if m.state = .opened ∧ now - m.lastFailure ≤ cfg.resetTimeout then
    (true, m)
  else if m.state = .opened ∧ cfg.resetTimeout < now - m.lastFailure then
    (false, transitionToHalfOpen m)
  else
    (false, m)

/-- `onSuccess(name)`. -/
def onSuccess (m : Monitor) : Monitor :=
  let m := { m with failures := 0 }
  if m.state = .halfOpen then transitionToClosed m else m

/-- `onError(name)`. -/
def onError (cfg : Config) (now : Nat) (m : Monitor) : Monitor :=
  let m := { m with failures := m.failures + 1, lastFailure := now }
  if cfg.failureThreshold ≤ m.failures then transitionToOpen m else m

/-- `reset(name)` for an existing monitor. -/
def reset (m : Monitor) : Monitor := transitionToClosed m

/-- The externally reachable operations on one monitor. -/
inductive Event where
  | isOpenQ (now : Nat)
  | success
  | failure (now : Nat)
  | resetE
  deriving DecidableEq, Repr

def step (cfg : Config) (m : Monitor) : Event → Monitor
  | .isOpenQ now => (isOpen cfg now m).2
  | .success => onSuccess m
  | .failure now => onError cfg now m
  | .resetE => reset m

/-- A breaker history: the monitor reached from `initMonitor` by a sequence of
operations. -/
def run (cfg : Config) (es : List Event) : Monitor :=
  es.foldl (step cfg) initMonitor

/-- Events driving a fresh breaker to the `opened` state (five consecutive
failures at time 0). -/
def toOpenEvents : List Event := List.replicate 5 (.failure 0)

/-- Events driving a fresh breaker to the `halfOpen` state: five failures, then
an `isOpen` probe after the reset timeout. -/
def toHalfOpenEvents : List Event := toOpenEvents ++ [.isOpenQ 60001]

end CircuitBreaker

namespace BalanceManager

/- Source: unnamed/part_007, class BalanceManager. -/

structure Config where
  reserveTimeoutMs : Nat := 30000
  deriving DecidableEq, Repr

/-- A value stored in `reservedBalances` (the `{ amount, timestamp }` record). -/
structure ResEntry where
  amount : ℚ
  timestamp : Nat
  deriving DecidableEq, Repr

/-- The manager's mutable state: `balances` maps `exchange_CURRENCY` keys to
total amounts, `reservedBalances` maps `exchange_CURRENCY_orderId` keys to
reservation entries. -/
structure State where
  balances : List (Str × ℚ)
  reservedBalances : List (Str × ResEntry)
  deriving DecidableEq, Repr

def initState : State := ⟨[], []⟩

/-- `_getKey(exchange, currency)`. -/
def getKey (exchange currency : Str) : Str :=
  lowerStr exchange ++ '_' :: upperStr currency

/-- The reservation key `` `${key}_${orderId}` ``. -/
def reserveKey (exchange currency orderId : Str) : Str :=
  getKey exchange currency ++ '_' :: orderId

/-- `getBalance(exchange, currency)`. -/
def getBalance (st : State) (exchange currency : Str) : ℚ :=
  (mapGet (getKey exchange currency) st.balances).getD 0

/-- `getReservedBalance(exchange, currency)`: sums every reservation whose key
STARTS WITH the pair's key (the source uses `reserveKey.startsWith(key)`). -/
def getReservedBalance (st : State) (exchange currency : Str) : ℚ :=
  (st.reservedBalances.filter
      (fun p => (getKey exchange currency).isPrefixOf p.1)).foldl
    (fun t p => t + p.2.amount) 0

/-- `getAvailableBalance(exchange, currency)`. -/
def getAvailableBalance (st : State) (exchange currency : Str) : ℚ :=
  dMax (getBalance st exchange currency - getReservedBalance st exchange currency) 0

/-- `updateBalance`: rejects negative amounts (the throw is caught and turned
into a `false` return), otherwise overwrites the total. -/
def updateBalance (st : State) (exchange currency : Str) (amount : ℚ) : Bool × State :=
  if amount < 0 then (false, st)
  else (true, { st with balances := mapSet (getKey exchange currency) amount st.balances })

/-- `reserveBalance`: checks availability, then stores the reservation entry
under the reservation key (overwriting any entry already stored there). -/
def reserveBalance (st : State) (exchange currency : Str) (amount : ℚ)
    (orderId : Str) (now : Nat) : Bool × State :=
  if getAvailableBalance st exchange currency < amount then (false, st)
  else (true,
    { st with reservedBalances :=
        mapSet (reserveKey exchange currency orderId) ⟨amount, now⟩ st.reservedBalances })

/-- `releaseBalance`: fails when no reservation is stored under the key, else
deletes it. -/
def releaseBalance (st : State) (exchange currency orderId : Str) : Bool × State :=
  if (mapGet (reserveKey exchange currency orderId) st.reservedBalances).isSome then
    (true,
      { st with reservedBalances :=
          mapDel (reserveKey exchange currency orderId) st.reservedBalances })
  else (false, st)

/-- The expiry callback scheduled by `_setReserveTimeout`, firing after the
reserve timeout: deletes the reservation if it is still present. -/
def expireReserve (st : State) (exchange currency orderId : Str) : State :=
  if (mapGet (reserveKey exchange currency orderId) st.reservedBalances).isSome then
    { st with reservedBalances :=
        mapDel (reserveKey exchange currency orderId) st.reservedBalances }
  else st

/-- Modelled from the spec: a ledger reservation record carrying its venue,
currency, order id and amount structurally ("Reservation: { id, venue,
currency, amount, order_id, expires_ts }"), used to state what invariant I1
means by "the live reservations for exactly that (venue, currency) pair". -/
structure SpecReservation where
  venue : Str
  currency : Str
  orderId : Str
  amount : ℚ
  deriving DecidableEq, Repr

/-- Modelled from the spec: the sum of the live reservations for exactly one
(venue, currency) pair, matching venue and currency up to the case folding the
ledger applies to its keys. -/
def specReservedSum (rs : List SpecReservation) (venue currency : Str) : ℚ :=
  (rs.filter (fun r => lowerStr r.venue = lowerStr venue ∧
      upperStr r.currency = upperStr currency)).foldl (fun t r => t + r.amount) 0

def eX : Str := ['e']

def usdCur : Str := ['U', 'S', 'D']

def usdtCur : Str := ['U', 'S', 'D', 'T']

def oid1 : Str := ['1']

def oid2 : Str := ['2']

/-- Ledger scenario: set total USD = 100 and total USDT = 50 on venue `e`,
then reserve 10 USDT for order `1`. -/
def c4State : State :=
  let st1 := (updateBalance initState eX usdCur 100).2
  let st2 := (updateBalance st1 eX usdtCur 50).2
  (reserveBalance st2 eX usdtCur 10 oid1 0).2

/-- The live reservations of `c4State`, as spec-level records: exactly one, for
(e, USDT). -/
def c4SpecReservations : List SpecReservation := [⟨eX, usdtCur, oid1, 10⟩]

/-- Ledger scenario for the reserve/release round trip: total USDT = 100 on
venue `e` with a live reservation of 10 USDT under order id `1`. -/
def c7State : State :=
  let st1 := (updateBalance initState eX usdtCur 100).2
  (reserveBalance st1 eX usdtCur 10 oid1 0).2

end BalanceManager

namespace ArbitrageDetector

/- Source: src/arbitrage/opportunityValidator.js, class ArbitrageDetector. -/

structure Config where
  minSpreadPercent : ℚ := 1/2
  minVolumeUSD : ℚ := 1000
  maxSlippage : ℚ := 3/10
  minProfitUSD : ℚ := 1
  deriving DecidableEq, Repr

def defaultCfg : Config := {}

/-- One entry of the `prices` map handed to `detectArbitrage`. -/
structure PriceEntry where
  exchange : Str
  price : ℚ
  volume : Option ℚ
  timestamp : Nat
  deriving DecidableEq, Repr

structure Opportunity where
  buyExchange : Str
  sellExchange : Str
  buyPrice : ℚ
  sellPrice : ℚ
  spread : ℚ
  volume : ℚ
  profit : ℚ
  timestamp : Nat
  deriving DecidableEq, Repr

/-- `_calculateSpread`: percent spread. -/
def calculateSpread (buyP sellP : ℚ) : ℚ :=
  (sellP - buyP) / buyP * 100

/-- `_calculateProfit`: gross minus an assumed 0.2% fee and a pessimistic
slippage of `maxSlippage / 100` of cost. -/
def calculateProfit (cfg : Config) (buyP sellP volume : ℚ) : ℚ :=
  let cost := buyP * volume
  let revenue := sellP * volume
  let totalFees := cost * (2/1000)
  let slippage := cost * (cfg.maxSlippage / 100)
  revenue - cost - totalFees - slippage

/-- `_validatePrices`: both entries present and no older than 5 seconds. -/
def validPrices (now : Nat) (ob os : Option PriceEntry) : Bool :=
  match ob, os with
  | some b, some s => ¬ (5000 < now - b.timestamp ∨ 5000 < now - s.timestamp)
  | _, _ => false

/-- `_checkPair`: the per-pair candidate filter of the opportunity detector. -/
def checkPair (cfg : Config) (now : Nat) (ob os : Option PriceEntry) :
    Option Opportunity :=
  if h : validPrices now ob os = true then
    match ob, os with
    | some b, some s =>
      let spread := calculateSpread b.price s.price
      if spread < cfg.minSpreadPercent / 100 then none
      else
        let volume := dMin (b.volume.getD 0) (s.volume.getD 0)
        if volume < cfg.minVolumeUSD then none
        else
          let profit := calculateProfit cfg b.price s.price volume
          if profit < cfg.minProfitUSD then none
          else some ⟨b.exchange, s.exchange, b.price, s.price, spread, volume, profit, now⟩
    | _, _ => none
  else none

def exA : Str := ['a']

def exB : Str := ['b']

/-- Concrete pair for exercising `checkPair`: buy at 100, sell at 101 (1%
spread), both sides with 2000 quote volume, fresh timestamps. -/
def buyEntryW : PriceEntry := ⟨exA, 100, some 2000, 0⟩

def sellEntryW : PriceEntry := ⟨exB, 101, some 2000, 0⟩

/-- The opportunity `checkPair` produces from `buyEntryW`/`sellEntryW` at time
0: 1% spread, 2000 volume, 1000 profit. -/
def oppW : Opportunity := ⟨exA, exB, 100, 101, 1, 2000, 1000, 0⟩

end ArbitrageDetector

namespace MarketDepthAnalyzer

/- Source: src/arbitrage/marketDepthAnalyzer.js, class MarketDepthAnalyzer. -/

structure Config where
  maxSlippage : ℚ := 3/1000
  minLiquidity : ℚ := 1000
  maxImpact : ℚ := 1/10
  deriving DecidableEq, Repr

def defaultCfg : Config := {}

inductive Side where
  | buy
  | sell
  deriving DecidableEq, Repr

structure SideAnalysis where
  filledAmount : ℚ
  remainingAmount : ℚ
  averagePrice : ℚ
  slippagePercent : ℚ
  totalCost : ℚ
  deriving DecidableEq, Repr

/-- The level walk of `_analyzeSide`: state is
(remaining, totalCost, weighted-price accumulator, filled); the loop breaks as
soon as the remaining amount reaches zero. -/
def walkLoop : List (ℚ × ℚ) → ℚ × ℚ × ℚ × ℚ → ℚ × ℚ × ℚ × ℚ
  | [], st => st
  | (price, amount) :: rest, (rem, cost, wacc, filled) =>
    let fill := dMin rem amount
    let st' := (rem - fill, cost + fill * price, wacc + price * fill, filled + fill)
    if rem - fill = 0 then st' else walkLoop rest st'

/-- `_analyzeSide`; the `orders[0][0]` access throws on an empty book, which
`analyzeDepth` catches, hence the `Option`. -/
def analyzeSide (orders : List (ℚ × ℚ)) (targetAmount : ℚ) (side : Side) :
    Option SideAnalysis :=
  match orders with
  | [] => none
  | (p0, _) :: _ =>
    let r := walkLoop orders (targetAmount, 0, 0, 0)
    let rem := r.1
    let cost := r.2.1
    let wacc := r.2.2.1
    let filled := r.2.2.2
    let weightedPrice := if filled = 0 then wacc else wacc / filled
    let slippage :=
      match side with
      | .buy => (weightedPrice - p0) / p0
      | .sell => (p0 - weightedPrice) / p0
    some ⟨filled, rem, weightedPrice, slippage * 100, cost⟩

structure Orderbook where
  bids : List (ℚ × ℚ)
  asks : List (ℚ × ℚ)
  deriving DecidableEq, Repr

structure DepthAnalysis where
  buyAnalysis : SideAnalysis
  sellAnalysis : SideAnalysis
  isExecutable : Bool
  deriving DecidableEq, Repr

/-- `_isExecutable`: complete fill on both sides, slippage check, and market
impact check (`totalCost / targetAmount` against `maxImpact`). -/
def isExecutableCheck (cfg : Config) (buyA sellA : SideAnalysis)
    (targetAmount : ℚ) : Bool :=
  if 0 < buyA.remainingAmount ∨ 0 < sellA.remainingAmount then false
  else if cfg.maxSlippage < buyA.slippagePercent ∨
      cfg.maxSlippage < sellA.slippagePercent then false
  else if cfg.maxImpact < buyA.totalCost / targetAmount ∨
      cfg.maxImpact < sellA.totalCost / targetAmount then false
  else true

/-- `analyzeDepth`: note the source walks `bids` for the analysis it labels
`buyAnalysis` and `asks` for `sellAnalysis`. -/
def analyzeDepth (cfg : Config) (orderbook : Orderbook) (targetAmount : ℚ) :
    Option DepthAnalysis :=
  match analyzeSide orderbook.bids targetAmount .buy,
      analyzeSide orderbook.asks targetAmount .sell with
  | some buyA, some sellA =>
    some ⟨buyA, sellA, isExecutableCheck cfg buyA sellA targetAmount⟩
  | _, _ => none

/-- The total size available on one side of a book. -/
def sumSizes (orders : List (ℚ × ℚ)) : ℚ := (orders.map Prod.snd).sum

/-- A book with one level of price 5 and size 100 on each side. -/
def bookC6 : Orderbook := ⟨[(5, 100)], [(5, 100)]⟩

/-- A book with one level of price 1/100 and size 100 on each side (cheap
enough to pass the impact check for a target of 10). -/
def bookC6W : Orderbook := ⟨[(1/100, 100)], [(1/100, 100)]⟩

/-- The analysis `analyzeDepth` produces on `bookC6W` for a target of 10:
fully filled, zero slippage, executable. -/
def aW : DepthAnalysis := ⟨⟨10, 0, 1/100, 0, 1/10⟩, ⟨10, 0, 1/100, 0, 1/10⟩, true⟩

end MarketDepthAnalyzer

namespace TradeExecutor

/- Source: src/trading/tradeExecutor.js, class TradeExecutor. -/

def maxSlippagePercent : ℚ := 3/10

def minProfitPercent : ℚ := 1/2

structure PositionSize where
  usdtAmount : ℚ
  vrscAmount : ℚ
  deriving DecidableEq, Repr

structure Opportunity where
  buyExchange : Str
  sellExchange : Str
  buyPrice : ℚ
  sellPrice : ℚ
  position : PositionSize
  deriving DecidableEq, Repr

structure Order where
  id : Str
  deriving DecidableEq, Repr

inductive OrderSide where
  | buy
  | sell
  deriving DecidableEq, Repr

/-- A limit-order creation request sent to the order manager. -/
structure OrderReq where
  exchange : Str
  side : OrderSide
  amount : ℚ
  price : ℚ
  deriving DecidableEq, Repr

/-- The outcome of `_monitorExecution`, abstracting its 1-second wall-clock
polling loop: both orders fill, a cancellation is observed (with the filled
flags seen on each status), or the 45-second timeout is reached. -/
inductive MonitorOutcome where
  | bothFilled
  | cancelledSeen (buyFilled sellFilled : Bool)
  | timeoutReached
  deriving DecidableEq, Repr

/-- The injected collaborators, as oracles: the price feed behind
`_getCurrentPrice` (the source delegates to an external price feed system),
the order manager, and the balance manager query used by `_checkBalances`. -/
structure Env where
  currentPrice : Str → Option ℚ
  createOrder : OrderReq → Option Order
  availableUSDT : Str → ℚ
  monitorOutcome : MonitorOutcome

/-- Externally visible order-manager effects of one `executeArbitrage` call.
The constructor `recordPosition` exists so that recording an open position is
expressible as an action; no code path of the executor emits it. -/
inductive Action where
  | placeOrder (req : OrderReq)
  | cancelOrder (orderId : Str)
  | recordPosition (exchange : Str) (amount price : ℚ)
  deriving DecidableEq, Repr

/-- The distinct exit paths of `executeArbitrage` (each corresponds to one
`return` in the source). -/
inductive ExitPath where
  | busy
  | pricesUnavailable
  | slippageExceeded
  | notViable
  | insufficientBalance
  | buyFailed
  | sellFailedAfterBuy
  | monitorCancelled
  | monitorTimeout
  | settled
  deriving DecidableEq, Repr

structure ExecResult where
  ok : Bool
  exitPath : ExitPath
  actions : List Action
  deriving DecidableEq, Repr

/-- `_validatePrices`: current prices must be truthy, within 30% of the
opportunity prices (the source compares raw ratios against 0.3), and the
recomputed raw spread must reach 0.5 (the source compares a ratio against the
percent threshold 0.5). -/
def validatePricesCheck (env : Env) (opp : Opportunity) : Option ExitPath :=
  match env.currentPrice opp.buyExchange, env.currentPrice opp.sellExchange with
  | some cb, some cs =>
    if cb = 0 ∨ cs = 0 then some .pricesUnavailable
    else if maxSlippagePercent < dAbs (cb - opp.buyPrice) / opp.buyPrice ∨
        maxSlippagePercent < dAbs (cs - opp.sellPrice) / opp.sellPrice then
      some .slippageExceeded
    else if (cs - cb) / cb < minProfitPercent then some .notViable
    else none
  | _, _ => some .pricesUnavailable

/-- `_checkBalances`: available USDT on the buy venue must cover the notional
plus a 1% fee buffer. -/
def checkBalances (env : Env) (opp : Opportunity) : Bool :=
  ¬ (env.availableUSDT opp.buyExchange < opp.position.usdtAmount * (101/100))

def buyReq (opp : Opportunity) : OrderReq :=
  ⟨opp.buyExchange, .buy, opp.position.vrscAmount, opp.buyPrice⟩

def sellReq (opp : Opportunity) : OrderReq :=
  ⟨opp.sellExchange, .sell, opp.position.vrscAmount, opp.sellPrice⟩

/-- `executeArbitrage`, given the executor's `isExecuting` flag at entry.
Returns the result and the order-manager actions issued, in order. When the
flag is set the call returns `false` immediately ("Trade execution already in
progress") without touching the order manager. -/
def executeArbitrage (isExecuting : Bool) (env : Env) (opp : Opportunity) :
    ExecResult :=
  if isExecuting then ⟨false, .busy, []⟩
  else
    match validatePricesCheck env opp with
    | some p => ⟨false, p, []⟩
    | none =>
      if ¬ checkBalances env opp then ⟨false, .insufficientBalance, []⟩
      else
        match env.createOrder (buyReq opp) with
        | none => ⟨false, .buyFailed, [.placeOrder (buyReq opp)]⟩
        | some buyOrder =>
          match env.createOrder (sellReq opp) with
          | none =>
            ⟨false, .sellFailedAfterBuy,
              [.placeOrder (buyReq opp), .placeOrder (sellReq opp),
               .cancelOrder buyOrder.id]⟩
          | some sellOrder =>
            let placed := [Action.placeOrder (buyReq opp),
              Action.placeOrder (sellReq opp)]
            match env.monitorOutcome with
            | .bothFilled => ⟨true, .settled, placed⟩
            | .cancelledSeen bf sf =>
              ⟨false, .monitorCancelled,
                placed ++ (if ¬ bf then [Action.cancelOrder buyOrder.id] else []) ++
                  (if ¬ sf then [Action.cancelOrder sellOrder.id] else [])⟩
            | .timeoutReached =>
              ⟨false, .monitorTimeout,
                placed ++ [.cancelOrder buyOrder.id, .cancelOrder sellOrder.id]⟩

def countSellPlacements (acts : List Action) : Nat :=
  (acts.filter (fun a => match a with
    | .placeOrder req => req.side = .sell
    | _ => false)).length

def countPositionRecords (acts : List Action) : Nat :=
  (acts.filter (fun a => match a with
    | .recordPosition _ _ _ => true
    | _ => false)).length

/-- The event-loop interleaving of executor calls: an `invoke` is the
synchronous prefix of `executeArbitrage` (the `isExecuting` guard and flag
set run without suspension), a `complete` is the `finally` block of a running
execution clearing the flag. -/
inductive SchedEvent where
  | invoke (env : Env) (opp : Opportunity)
  | complete

structure SchedState where
  isExecuting : Bool
  active : Nat

def initSched : SchedState := ⟨false, 0⟩

def schedStep (s : SchedState) : SchedEvent → SchedState × Option ExecResult
  | .invoke env opp =>
    if s.isExecuting then (s, some (executeArbitrage s.isExecuting env opp))
    else (⟨true, s.active + 1⟩, none)
  | .complete => (⟨false, s.active - 1⟩, none)

def schedRun (es : List SchedEvent) : SchedState :=
  es.foldl (fun s e => (schedStep s e).1) initSched

def exA3 : Str := ['a']

def exB3 : Str := ['b']

def buyId3 : Str := ['B', '1']

/-- Concrete opportunity: buy 10 base at 100 on `a`, sell at 160 on `b`
(60% spread, which passes the executor's raw-ratio viability check). -/
def opp3 : Opportunity := ⟨exA3, exB3, 100, 160, ⟨1000, 10⟩⟩

/-- Oracle where prices match the opportunity, the balance is ample, the buy
placement succeeds and every sell placement fails. -/
def env3 : Env where
  currentPrice ex := if ex = exA3 then some 100 else some 160
  createOrder req := if req.side = .buy then some ⟨buyId3⟩ else none
  availableUSDT _ := 1000000
  monitorOutcome := .bothFilled

end TradeExecutor

namespace PriceValidator

/- Source: src/utils/price-validator.js, class PriceValidator. -/

structure Config where
  maxPriceDeviation : ℚ := 1/10
  priceValidityMs : Nat := 30000
  maxStalePrice : Nat := 300000
  minPrice : ℚ := 1/100000
  maxPrice : ℚ := 1000000
  deriving DecidableEq, Repr

def defaultCfg : Config := {}

/-- A JS value passed as `price`: a finite number, NaN, an infinity, a string
parsing as a decimal number, a malformed string, null, undefined, or any
other object. Positive zero is `num 0`. -/
inductive JsVal where
  | num (q : ℚ)
  | nan
  | inf (positive : Bool)
  | numStr (q : ℚ)
  | badStr
  | nullV
  | undef
  | other
  deriving DecidableEq, Repr

/-- A Decimal.js value. -/
inductive Dec where
  | fin (q : ℚ)
  | dnan
  | dinf (positive : Bool)
  deriving DecidableEq, Repr

/-- `new Decimal(price)`: throws on values it cannot parse. -/
def toDecimal : JsVal → Except Unit Dec
  | .num q => .ok (.fin q)
  | .nan => .ok .dnan
  | .inf p => .ok (.dinf p)
  | .numStr q => .ok (.fin q)
  | .badStr => .error ()
  | .nullV => .error ()
  | .undef => .error ()
  | .other => .error ()

/-- `isPositive()` is a sign test (`s > 0`); positive zero has positive sign,
NaN's sign comparison is false. -/
def Dec.isPositive : Dec → Bool
  | .fin q => 0 ≤ q
  | .dnan => false
  | .dinf p => p

def Dec.isFinite : Dec → Bool
  | .fin _ => true
  | _ => false

/-- `_isValidNumber`. -/
def isValidNumber (v : JsVal) : Bool :=
  match toDecimal v with
  | .ok d => d.isPositive && d.isFinite
  | .error _ => false

/-- `_isWithinRange`, applied to the parsed finite value. -/
def withinRange (cfg : Config) (q : ℚ) : Bool :=
  cfg.minPrice ≤ q && q ≤ cfg.maxPrice

/-- `_isWithinDeviation`. A zero window mean makes the Decimal quotient
infinite or NaN, and either fails the `lte` comparison. -/
def withinDeviation (cfg : Config) (q : ℚ) (recentPrices : List ℚ) : Bool :=
  if recentPrices.length = 0 then true
  else
    let avg := recentPrices.sum / recentPrices.length
    if avg = 0 then false
    else dAbs (q - avg) / avg ≤ cfg.maxPriceDeviation

/-- `_isPriceFresh`. -/
def priceFresh (cfg : Config) (now ts : Nat) : Bool :=
  now - ts < cfg.maxStalePrice

/-- The validation context. A `timestamp` of 0 is falsy in JS, so the
freshness check is skipped for it, as for a missing timestamp. -/
structure Ctx where
  exchange : Option Str
  recentPrices : List ℚ
  timestamp : Option Nat
  deriving DecidableEq, Repr

/-- The guard `context.timestamp && !this._isPriceFresh(context.timestamp)`
does NOT fail, i.e. the tick counts as fresh. -/
def freshnessOk (cfg : Config) (ctx : Ctx) (now : Nat) : Bool :=
  match ctx.timestamp with
  | none => true
  | some ts => ts = 0 || priceFresh cfg now ts

/-- One entry of the per-exchange price history ring. -/
structure HistEntry where
  price : JsVal
  timestamp : Nat
  deriving DecidableEq, Repr

structure VState where
  priceHistory : List (Str × List HistEntry)
  deriving DecidableEq, Repr

def initVState : VState := ⟨[]⟩

/-- `_updatePriceHistory`: no-op without an exchange, else push the raw price
and truncate entries older than `priceValidityMs`. -/
def updatePriceHistory (cfg : Config) (st : VState) (exchange : Option Str)
    (v : JsVal) (now : Nat) : VState :=
  match exchange with
  | none => st
  | some ex =>
    let history := (mapGet ex st.priceHistory).getD []
    let history := history ++ [⟨v, now⟩]
    let cutoff := now - cfg.priceValidityMs
    ⟨mapSet ex (history.filter (fun e => cutoff < e.timestamp)) st.priceHistory⟩

/-- `validatePrice`: every throwing sub-step is caught (returning `false`), so
the function is total and returns a boolean together with the possibly-updated
history state. -/
def validatePrice (cfg : Config) (st : VState) (v : JsVal) (ctx : Ctx)
    (now : Nat) : Bool × VState :=
  match toDecimal v with
  | .error _ => (false, st)
  | .ok d =>
    if ¬ (d.isPositive && d.isFinite) then (false, st)
    else
      match d with
      | .fin q =>
        if ¬ withinRange cfg q then (false, st)
        else if ¬ withinDeviation cfg q ctx.recentPrices then (false, st)
        else if ¬ freshnessOk cfg ctx now then (false, st)
        else (true, updatePriceHistory cfg st ctx.exchange v now)
      | _ => (false, st)

/-- A JS input the claims call malformed: non-numeric, non-finite, negative
or zero. -/
def malformedInput : JsVal → Bool
  | .num q => q ≤ 0
  | .numStr q => q ≤ 0
  | .nan => true
  | .inf _ => true
  | .badStr => true
  | .nullV => true
  | .undef => true
  | .other => true

/-- An empty validation context under which the deviation and freshness checks
pass for every price. -/
def emptyCtx : Ctx := ⟨none, [], none⟩

end PriceValidator

/-- One-step analysis of the breaker: the only transition that produces the
`halfOpen` state from a different state is the reset-timeout branch of
`isOpen`, which fires only while the state is `opened`. -/
theorem CircuitBreaker.step_into_halfOpen (cfg : CircuitBreaker.Config)
    (m : CircuitBreaker.Monitor) (e : CircuitBreaker.Event)
    (h : (CircuitBreaker.step cfg m e).state = .halfOpen) :
    m.state = .opened ∨ m.state = .halfOpen := by
  cases e with
  | isOpenQ now =>
    simp only [CircuitBreaker.step, CircuitBreaker.isOpen] at h
    split at h
    · exact Or.inr h
    · split at h
      · rename_i hc
        exact Or.inl hc.1
      · exact Or.inr h
  | success =>
    simp only [CircuitBreaker.step, CircuitBreaker.onSuccess] at h
    split at h
    · simp [CircuitBreaker.transitionToClosed] at h
    · exact Or.inr h
  | failure now =>
    simp only [CircuitBreaker.step, CircuitBreaker.onError] at h
    split at h
    · simp [CircuitBreaker.transitionToOpen] at h
    · exact Or.inr h
  | resetE =>
    simp [CircuitBreaker.step, CircuitBreaker.reset, CircuitBreaker.transitionToClosed] at h

/-- Claim C5: the circuit breaker never transitions directly from closed to
half-open; in every reachable sequence of breaker states, when a step moves
the breaker into `halfOpen`, the state immediately before is `opened`. -/
theorem breaker_halfOpen_preceded_by_open (cfg : CircuitBreaker.Config)
    (es : List CircuitBreaker.Event) (e : CircuitBreaker.Event)
    (h : (CircuitBreaker.step cfg (CircuitBreaker.run cfg es) e).state = .halfOpen)
    (hprev : (CircuitBreaker.run cfg es).state ≠ .halfOpen) :
    (CircuitBreaker.run cfg es).state = .opened := by
  rcases CircuitBreaker.step_into_halfOpen cfg (CircuitBreaker.run cfg es) e h with h1 | h1
  · exact h1
  · exact absurd h1 hprev

/-- Witness for C5: after five failures the breaker is `opened`, and the
`isOpen` probe after the reset timeout is a step into `halfOpen`. -/
theorem breaker_halfOpen_preceded_by_open_witness :
    (CircuitBreaker.run CircuitBreaker.defaultCfg CircuitBreaker.toOpenEvents).state = .opened :=
  breaker_halfOpen_preceded_by_open CircuitBreaker.defaultCfg CircuitBreaker.toOpenEvents
    (.isOpenQ 60001) (by decide) (by decide)

/-- Counterexample for C1: a breaker driven to `halfOpen` (five failures, then
a probe after the reset timeout) has seen zero consecutive successes, and one
single `onSuccess` call moves it to `closed` rather than leaving it
half-open. -/
theorem breaker_single_success_closes_cex :
    (CircuitBreaker.run CircuitBreaker.defaultCfg CircuitBreaker.toHalfOpenEvents).state = .halfOpen ∧
    (CircuitBreaker.run CircuitBreaker.defaultCfg CircuitBreaker.toHalfOpenEvents).consecutiveSuccesses = 0 ∧
    (CircuitBreaker.step CircuitBreaker.defaultCfg
      (CircuitBreaker.run CircuitBreaker.defaultCfg CircuitBreaker.toHalfOpenEvents) .success).state = .closed := by
  decide

/-- Claim C1 as amended: in the half-open state the breaker transitions to
closed on the first successful call; no success counting takes place (the
`consecutiveSuccesses` field is reset but never incremented or read). -/
theorem breaker_halfOpen_closes_after_first_success (cfg : CircuitBreaker.Config)
    (m : CircuitBreaker.Monitor) (h : m.state = .halfOpen) :
    (CircuitBreaker.step cfg m .success).state = .closed := by
  simp only [CircuitBreaker.step, CircuitBreaker.onSuccess, CircuitBreaker.transitionToClosed]
  simp [h]

/-- Witness for the amended C1: the reachable half-open breaker closes on one
success. -/
theorem breaker_halfOpen_closes_after_first_success_witness :
    (CircuitBreaker.step CircuitBreaker.defaultCfg
      (CircuitBreaker.run CircuitBreaker.defaultCfg CircuitBreaker.toHalfOpenEvents) .success).state = .closed :=
  breaker_halfOpen_closes_after_first_success CircuitBreaker.defaultCfg
    (CircuitBreaker.run CircuitBreaker.defaultCfg CircuitBreaker.toHalfOpenEvents) (by decide)

/-- Looking up a key just stored by `mapSet` yields the stored value. -/
theorem mapGet_mapSet_self {α : Type} (k : Str) (v : α) (l : List (Str × α)) :
    mapGet k (mapSet k v l) = some v := by
  induction l with
  | nil => simp [mapSet, mapGet]
  | cons p rest ih =>
    obtain ⟨k', v'⟩ := p
    by_cases h : k' = k
    · simp [mapSet, mapGet, h]
    · simp [mapSet, mapGet, h, ih]

/-- Deleting a key that was fresh before a `mapSet` restores the original
association list. -/
theorem mapDel_mapSet_fresh {α : Type} (k : Str) (v : α) (l : List (Str × α))
    (h : mapGet k l = none) : mapDel k (mapSet k v l) = l := by
  induction l with
  | nil => simp [mapSet, mapDel, List.filter_cons, List.filter_nil]
  | cons p rest ih =>
    obtain ⟨k', v'⟩ := p
    rw [mapGet] at h
    by_cases hk : k' = k
    · rw [if_pos hk] at h
      simp at h
    · rw [if_neg hk] at h
      have ih' := ih h
      rw [mapSet, if_neg hk]
      unfold mapDel at ih' ⊢
      rw [List.filter_cons, if_pos (by simp [hk]), ih']

/-- Reserving under a fresh reservation key and then releasing that key
restores the ledger state exactly (whether or not the reserve succeeded). -/
theorem ledger_reserve_release_state (st : BalanceManager.State) (ex cur : Str)
    (amt : ℚ) (oid : Str) (now : Nat)
    (hfresh : mapGet (BalanceManager.reserveKey ex cur oid) st.reservedBalances = none) :
    (BalanceManager.releaseBalance
      (BalanceManager.reserveBalance st ex cur amt oid now).2 ex cur oid).2 = st := by
  unfold BalanceManager.reserveBalance
  split
  · unfold BalanceManager.releaseBalance
    rw [hfresh]
    simp
  · unfold BalanceManager.releaseBalance
    simp [mapGet_mapSet_self, mapDel_mapSet_fresh _ _ _ hfresh]

/-- Claim C4 (divergence at a concrete input): with totals USD = 100 and
USDT = 50 on venue `e` and a single live reservation of 10 USDT, the ledger
reports available USD = 90, while the invariant `available = max(0, total −
Σ live reservations for exactly that (venue, currency) pair)` gives 100: the
reservation-key prefix match counts the USDT reservation against USD. -/
theorem ledger_prefix_reservation_divergence :
    (BalanceManager.reserveBalance
        (BalanceManager.updateBalance
          (BalanceManager.updateBalance BalanceManager.initState BalanceManager.eX BalanceManager.usdCur 100).2
          BalanceManager.eX BalanceManager.usdtCur 50).2
        BalanceManager.eX BalanceManager.usdtCur 10 BalanceManager.oid1 0).1 = true ∧
    BalanceManager.getBalance BalanceManager.c4State BalanceManager.eX BalanceManager.usdCur = 100 ∧
    BalanceManager.specReservedSum BalanceManager.c4SpecReservations BalanceManager.eX BalanceManager.usdCur = 0 ∧
    dMax (BalanceManager.getBalance BalanceManager.c4State BalanceManager.eX BalanceManager.usdCur -
      BalanceManager.specReservedSum BalanceManager.c4SpecReservations BalanceManager.eX BalanceManager.usdCur) 0 = 100 ∧
    BalanceManager.getAvailableBalance BalanceManager.c4State BalanceManager.eX BalanceManager.usdCur = 90 := by
  refine ⟨?_, ?_, ?_, ?_, ?_⟩ <;>
  norm_num [BalanceManager.getAvailableBalance, BalanceManager.c4State, BalanceManager.getBalance,
    BalanceManager.getReservedBalance, BalanceManager.updateBalance, BalanceManager.reserveBalance,
    BalanceManager.initState, BalanceManager.getKey, BalanceManager.reserveKey, BalanceManager.specReservedSum,
    BalanceManager.c4SpecReservations, mapGet, mapSet, dMax,
    lowerStr, upperStr, BalanceManager.eX, BalanceManager.usdCur, BalanceManager.usdtCur, BalanceManager.oid1,
    List.isPrefixOf, List.filter, List.foldl]

/-- Counterexample for C7: with total USDT = 100 on venue `e` and a live
reservation of 10 under order id `1`, a second reserve of 20 under the SAME
order id succeeds (available 90 ≥ 20) but overwrites the stored entry, so the
subsequent release leaves available = 100 instead of the prior 90. -/
theorem ledger_reserve_release_overwrite_cex :
    (BalanceManager.reserveBalance BalanceManager.c7State BalanceManager.eX BalanceManager.usdtCur 20
      BalanceManager.oid1 5).1 = true ∧
    BalanceManager.getAvailableBalance BalanceManager.c7State BalanceManager.eX BalanceManager.usdtCur = 90 ∧
    BalanceManager.getAvailableBalance
      (BalanceManager.releaseBalance
        (BalanceManager.reserveBalance BalanceManager.c7State BalanceManager.eX BalanceManager.usdtCur 20
          BalanceManager.oid1 5).2
        BalanceManager.eX BalanceManager.usdtCur BalanceManager.oid1).2
      BalanceManager.eX BalanceManager.usdtCur = 100 := by
  refine ⟨?_, ?_, ?_⟩ <;>
  norm_num [BalanceManager.getAvailableBalance, BalanceManager.c7State, BalanceManager.getBalance,
    BalanceManager.getReservedBalance, BalanceManager.updateBalance, BalanceManager.reserveBalance,
    BalanceManager.releaseBalance, BalanceManager.initState, BalanceManager.getKey, BalanceManager.reserveKey,
    mapGet, mapSet, mapDel, dMax, lowerStr, upperStr, BalanceManager.eX, BalanceManager.usdtCur,
    BalanceManager.oid1, List.isPrefixOf, List.filter, List.foldl]

/-- Claim C7 as amended: a successful reserve followed by a release of that
reservation returns the available balance to its prior value, provided no
unrelated mutation occurs in between AND no live reservation already exists
under the same (venue, currency, order id) key at reserve time. -/
theorem ledger_reserve_release_roundtrip (st : BalanceManager.State) (ex cur : Str)
    (amt : ℚ) (oid : Str) (now : Nat)
    (hs : (BalanceManager.reserveBalance st ex cur amt oid now).1 = true)
    (hfresh : mapGet (BalanceManager.reserveKey ex cur oid) st.reservedBalances = none) :
    BalanceManager.getAvailableBalance
      (BalanceManager.releaseBalance
        (BalanceManager.reserveBalance st ex cur amt oid now).2 ex cur oid).2 ex cur
      = BalanceManager.getAvailableBalance st ex cur := by
  rw [ledger_reserve_release_state st ex cur amt oid now hfresh]

/-- Witness for the amended C7: reserving 20 USDT under the fresh order id `2`
on the scenario ledger and releasing it restores the available balance. -/
theorem ledger_reserve_release_roundtrip_witness :
    BalanceManager.getAvailableBalance
      (BalanceManager.releaseBalance
        (BalanceManager.reserveBalance BalanceManager.c7State BalanceManager.eX BalanceManager.usdtCur 20
          BalanceManager.oid2 5).2
        BalanceManager.eX BalanceManager.usdtCur BalanceManager.oid2).2
      BalanceManager.eX BalanceManager.usdtCur
      = BalanceManager.getAvailableBalance BalanceManager.c7State BalanceManager.eX BalanceManager.usdtCur :=
  ledger_reserve_release_roundtrip BalanceManager.c7State BalanceManager.eX BalanceManager.usdtCur 20
    BalanceManager.oid2 5
    (by norm_num [BalanceManager.getAvailableBalance, BalanceManager.c7State, BalanceManager.getBalance,
      BalanceManager.getReservedBalance, BalanceManager.updateBalance, BalanceManager.reserveBalance,
      BalanceManager.initState, BalanceManager.getKey, BalanceManager.reserveKey, mapGet, mapSet, dMax,
      lowerStr, upperStr, BalanceManager.eX, BalanceManager.usdtCur, BalanceManager.oid1, BalanceManager.oid2,
      List.isPrefixOf, List.filter, List.foldl])
    (by
      norm_num [BalanceManager.c7State, BalanceManager.updateBalance, BalanceManager.reserveBalance,
        BalanceManager.initState, BalanceManager.getKey, BalanceManager.reserveKey,
        BalanceManager.getAvailableBalance, BalanceManager.getBalance, BalanceManager.getReservedBalance,
        mapGet, mapSet, dMax, lowerStr, upperStr,
        BalanceManager.eX, BalanceManager.usdtCur, BalanceManager.oid1, BalanceManager.oid2,
        List.isPrefixOf, List.filter, List.foldl]
      intro hcontra
      exact absurd hcontra (by decide))

/-- The value of `checkPair` on two present price entries, as one nested
conditional. -/
theorem ArbitrageDetector.checkPair_some_some (cfg : ArbitrageDetector.Config) (now : Nat)
    (b s : ArbitrageDetector.PriceEntry) :
    ArbitrageDetector.checkPair cfg now (some b) (some s) =
      if ArbitrageDetector.validPrices now (some b) (some s) = true then
        if ArbitrageDetector.calculateSpread b.price s.price < cfg.minSpreadPercent / 100 then none
        else if dMin (b.volume.getD 0) (s.volume.getD 0) < cfg.minVolumeUSD then none
        else if ArbitrageDetector.calculateProfit cfg b.price s.price
            (dMin (b.volume.getD 0) (s.volume.getD 0)) < cfg.minProfitUSD then none
        else some ⟨b.exchange, s.exchange, b.price, s.price,
          ArbitrageDetector.calculateSpread b.price s.price,
          dMin (b.volume.getD 0) (s.volume.getD 0),
          ArbitrageDetector.calculateProfit cfg b.price s.price
            (dMin (b.volume.getD 0) (s.volume.getD 0)), now⟩
      else none := by
  simp only [ArbitrageDetector.checkPair]
  split
  · rfl
  · rfl

/-- Claim C2: with the default configuration and a positive buy price, every
opportunity the detector emits for a pair carries a percent spread of at
least `minSpreadPercent`, and a pair whose percent spread is below
`minSpreadPercent` yields no opportunity. (The spread guard itself compares
against `minSpreadPercent / 100`, but the profit guard still forces the
bound.) -/
theorem detector_spread_threshold (now : Nat) (b s : ArbitrageDetector.PriceEntry)
    (hb : 0 < b.price) :
    (∀ opp : ArbitrageDetector.Opportunity,
      ArbitrageDetector.checkPair ArbitrageDetector.defaultCfg now (some b) (some s) = some opp →
      ArbitrageDetector.defaultCfg.minSpreadPercent ≤ opp.spread) ∧
    (ArbitrageDetector.calculateSpread b.price s.price <
        ArbitrageDetector.defaultCfg.minSpreadPercent →
      ArbitrageDetector.checkPair ArbitrageDetector.defaultCfg now (some b) (some s) = none) := by
  have hcfg1 : ArbitrageDetector.defaultCfg.minSpreadPercent = 1/2 := rfl
  have hcfg2 : ArbitrageDetector.defaultCfg.minVolumeUSD = 1000 := rfl
  have hcfg4 : ArbitrageDetector.defaultCfg.minProfitUSD = 1 := rfl
  have hprofit : ∀ v : ℚ,
      ArbitrageDetector.calculateProfit ArbitrageDetector.defaultCfg b.price s.price v
        = v * (s.price - b.price - b.price * (1/200)) := by
    intro v
    show s.price * v - b.price * v - b.price * v * (2/1000) -
        b.price * v * ((3:ℚ)/10 / 100) = _
    ring
  constructor
  · intro opp hsome
    rw [ArbitrageDetector.checkPair_some_some] at hsome
    by_cases hv : ArbitrageDetector.validPrices now (some b) (some s) = true
    case neg => rw [if_neg hv] at hsome; cases hsome
    rw [if_pos hv] at hsome
    by_cases h1 : ArbitrageDetector.calculateSpread b.price s.price <
        ArbitrageDetector.defaultCfg.minSpreadPercent / 100
    case pos => rw [if_pos h1] at hsome; cases hsome
    rw [if_neg h1] at hsome
    by_cases h2 : dMin (b.volume.getD 0) (s.volume.getD 0) <
        ArbitrageDetector.defaultCfg.minVolumeUSD
    case pos => rw [if_pos h2] at hsome; cases hsome
    rw [if_neg h2] at hsome
    by_cases h3 : ArbitrageDetector.calculateProfit ArbitrageDetector.defaultCfg b.price s.price
        (dMin (b.volume.getD 0) (s.volume.getD 0)) < ArbitrageDetector.defaultCfg.minProfitUSD
    case pos => rw [if_pos h3] at hsome; cases hsome
    rw [if_neg h3] at hsome
    injection hsome with h4
    subst h4
    push_neg at h2 h3
    rw [hcfg2] at h2
    rw [hcfg4, hprofit] at h3
    have hvpos : (0:ℚ) < dMin (b.volume.getD 0) (s.volume.getD 0) :=
      lt_of_lt_of_le (by norm_num) h2
    have hx : 0 < s.price - b.price - b.price * (1/200) := by
      by_contra hxc
      push_neg at hxc
      have hnp : dMin (b.volume.getD 0) (s.volume.getD 0) *
          (s.price - b.price - b.price * (1/200)) ≤ 0 :=
        mul_nonpos_of_nonneg_of_nonpos (le_of_lt hvpos) hxc
      linarith
    show ArbitrageDetector.defaultCfg.minSpreadPercent ≤
      ArbitrageDetector.calculateSpread b.price s.price
    rw [hcfg1]
    unfold ArbitrageDetector.calculateSpread
    rw [div_mul_eq_mul_div, le_div_iff₀ hb]
    linarith
  · intro hlt
    rw [hcfg1] at hlt
    rw [ArbitrageDetector.checkPair_some_some]
    by_cases hv : ArbitrageDetector.validPrices now (some b) (some s) = true
    case neg => rw [if_neg hv]
    rw [if_pos hv]
    by_cases h1 : ArbitrageDetector.calculateSpread b.price s.price <
        ArbitrageDetector.defaultCfg.minSpreadPercent / 100
    · rw [if_pos h1]
    rw [if_neg h1]
    by_cases h2 : dMin (b.volume.getD 0) (s.volume.getD 0) <
        ArbitrageDetector.defaultCfg.minVolumeUSD
    · rw [if_pos h2]
    rw [if_neg h2]
    push_neg at h2
    rw [hcfg2] at h2
    have hvpos : (0:ℚ) < dMin (b.volume.getD 0) (s.volume.getD 0) :=
      lt_of_lt_of_le (by norm_num) h2
    have hx : s.price - b.price - b.price * (1/200) < 0 := by
      unfold ArbitrageDetector.calculateSpread at hlt
      rw [div_mul_eq_mul_div, div_lt_iff₀ hb] at hlt
      linarith
    have hp : ArbitrageDetector.calculateProfit ArbitrageDetector.defaultCfg b.price s.price
        (dMin (b.volume.getD 0) (s.volume.getD 0)) <
        ArbitrageDetector.defaultCfg.minProfitUSD := by
      rw [hcfg4, hprofit]
      have := mul_neg_of_pos_of_neg hvpos hx
      linarith
    rw [if_pos hp]

/-- Witness for C2: the concrete fresh pair (buy 100, sell 101, volume 2000)
passes `checkPair`, and the emitted opportunity's spread of 1 percent is at
least the 0.5 minimum. -/
theorem detector_spread_threshold_witness :
    (0:ℚ) < ArbitrageDetector.buyEntryW.price ∧
    ArbitrageDetector.defaultCfg.minSpreadPercent ≤ ArbitrageDetector.oppW.spread :=
  ⟨by norm_num [ArbitrageDetector.buyEntryW],
   (detector_spread_threshold 0 ArbitrageDetector.buyEntryW ArbitrageDetector.sellEntryW
      (by norm_num [ArbitrageDetector.buyEntryW])).1 ArbitrageDetector.oppW
    (by
      rw [ArbitrageDetector.checkPair_some_some]
      norm_num [ArbitrageDetector.validPrices, ArbitrageDetector.calculateSpread,
        ArbitrageDetector.calculateProfit, ArbitrageDetector.buyEntryW,
        ArbitrageDetector.sellEntryW, ArbitrageDetector.oppW, ArbitrageDetector.defaultCfg,
        ArbitrageDetector.exA, ArbitrageDetector.exB, dMin])⟩

/-- The sum of nonnegative level sizes is nonnegative. -/
theorem MarketDepthAnalyzer.sumSizes_nonneg (orders : List (ℚ × ℚ))
    (h : ∀ p ∈ orders, 0 ≤ p.2) : 0 ≤ MarketDepthAnalyzer.sumSizes orders := by
  induction orders with
  | nil => simp [MarketDepthAnalyzer.sumSizes]
  | cons p rest ih =>
    have hp := h p (List.mem_cons_self p rest)
    have hr := ih (fun q hq => h q (List.mem_cons_of_mem p hq))
    simp only [MarketDepthAnalyzer.sumSizes, List.map_cons, List.sum_cons] at *
    linarith

/-- Clamping at zero is nonpositive exactly when the clamped value is. -/
theorem dMax_zero_nonpos_iff (x : ℚ) : dMax x 0 ≤ 0 ↔ x ≤ 0 := by
  unfold dMax
  split
  · rename_i hx
    exact ⟨fun _ => hx, fun _ => le_refl 0⟩
  · exact Iff.rfl

/-- The remaining amount after the level walk equals the excess of the target
over the total available size, clamped at zero (nonnegative sizes, nonnegative
target). -/
theorem MarketDepthAnalyzer.walkLoop_remaining :
    ∀ orders : List (ℚ × ℚ), (∀ p ∈ orders, 0 ≤ p.2) →
    ∀ t c w f : ℚ, 0 ≤ t →
      (MarketDepthAnalyzer.walkLoop orders (t, c, w, f)).1 =
        dMax (t - MarketDepthAnalyzer.sumSizes orders) 0 := by
  intro orders
  induction orders with
  | nil =>
    intro h t c w f ht
    simp only [MarketDepthAnalyzer.walkLoop, MarketDepthAnalyzer.sumSizes, List.map_nil,
      List.sum_nil, sub_zero, dMax]
    split
    · linarith
    · rfl
  | cons p rest ih =>
    intro h t c w f ht
    obtain ⟨price, amount⟩ := p
    have ha : 0 ≤ amount := h (price, amount) (List.mem_cons_self _ rest)
    have hrest : ∀ q ∈ rest, 0 ≤ q.2 := fun q hq => h q (List.mem_cons_of_mem _ hq)
    have hsum : MarketDepthAnalyzer.sumSizes ((price, amount) :: rest) =
        amount + MarketDepthAnalyzer.sumSizes rest := by
      simp [MarketDepthAnalyzer.sumSizes]
    have hfill_le : dMin t amount ≤ t := by
      unfold dMin
      split
      · linarith
      · linarith
    simp only [MarketDepthAnalyzer.walkLoop]
    split
    · rename_i hz
      rw [hsum]
      have htle : t ≤ amount := by
        unfold dMin at hz
        by_cases hta : t ≤ amount
        · exact hta
        · rw [if_neg hta] at hz
          linarith
      have hs := MarketDepthAnalyzer.sumSizes_nonneg rest hrest
      unfold dMax
      rw [if_pos (by linarith)]
      exact hz
    · rename_i hz
      have hta : amount < t := by
        unfold dMin at hz
        by_cases hta : t ≤ amount
        · rw [if_pos hta] at hz
          simp at hz
        · push_neg at hta
          exact hta
      have hfill : dMin t amount = amount := by
        unfold dMin
        rw [if_neg (by linarith)]
      rw [ih hrest (t - dMin t amount) (c + dMin t amount * price)
        (w + price * dMin t amount) (f + dMin t amount) (by linarith), hfill, hsum]
      congr 1
      ring

/-- `_isExecutable` as the conjunction of its three gate conditions. -/
theorem MarketDepthAnalyzer.isExecutableCheck_iff (cfg : MarketDepthAnalyzer.Config)
    (bA sA : MarketDepthAnalyzer.SideAnalysis) (t : ℚ) :
    MarketDepthAnalyzer.isExecutableCheck cfg bA sA t = true ↔
      (bA.remainingAmount ≤ 0 ∧ sA.remainingAmount ≤ 0 ∧
       bA.slippagePercent ≤ cfg.maxSlippage ∧ sA.slippagePercent ≤ cfg.maxSlippage ∧
       bA.totalCost / t ≤ cfg.maxImpact ∧ sA.totalCost / t ≤ cfg.maxImpact) := by
  unfold MarketDepthAnalyzer.isExecutableCheck
  by_cases h1 : 0 < bA.remainingAmount ∨ 0 < sA.remainingAmount
  · rw [if_pos h1]
    refine ⟨fun hft => absurd hft (by simp), fun hc => ?_⟩
    rcases h1 with h1 | h1
    · exact absurd hc.1 (not_le.mpr h1)
    · exact absurd hc.2.1 (not_le.mpr h1)
  rw [if_neg h1]
  by_cases h2 : cfg.maxSlippage < bA.slippagePercent ∨ cfg.maxSlippage < sA.slippagePercent
  · rw [if_pos h2]
    refine ⟨fun hft => absurd hft (by simp), fun hc => ?_⟩
    rcases h2 with h2 | h2
    · exact absurd hc.2.2.1 (not_le.mpr h2)
    · exact absurd hc.2.2.2.1 (not_le.mpr h2)
  rw [if_neg h2]
  by_cases h3 : cfg.maxImpact < bA.totalCost / t ∨ cfg.maxImpact < sA.totalCost / t
  · rw [if_pos h3]
    refine ⟨fun hft => absurd hft (by simp), fun hc => ?_⟩
    rcases h3 with h3 | h3
    · exact absurd hc.2.2.2.2.1 (not_le.mpr h3)
    · exact absurd hc.2.2.2.2.2 (not_le.mpr h3)
  rw [if_neg h3]
  push_neg at h1 h2 h3
  exact ⟨fun _ => ⟨h1.1, h1.2, h2.1, h2.2, h3.1, h3.2⟩, fun _ => rfl⟩

/-- Counterexample for C6: on a book with one level of price 5 and size 100 on
each side and a target of 10, both walks fully absorb the target (remaining 0)
with zero realized slippage, yet the analysis reports the order NOT
executable (the market-impact gate compares `totalCost / targetAmount` = 5
against `maxImpact` = 1/10). -/
theorem depth_impact_check_cex :
    (MarketDepthAnalyzer.analyzeDepth MarketDepthAnalyzer.defaultCfg MarketDepthAnalyzer.bookC6 10).map
        (fun a => a.isExecutable) = some false ∧
    (MarketDepthAnalyzer.analyzeDepth MarketDepthAnalyzer.defaultCfg MarketDepthAnalyzer.bookC6 10).map
        (fun a => a.buyAnalysis.remainingAmount) = some 0 ∧
    (MarketDepthAnalyzer.analyzeDepth MarketDepthAnalyzer.defaultCfg MarketDepthAnalyzer.bookC6 10).map
        (fun a => a.sellAnalysis.remainingAmount) = some 0 ∧
    (MarketDepthAnalyzer.analyzeDepth MarketDepthAnalyzer.defaultCfg MarketDepthAnalyzer.bookC6 10).map
        (fun a => a.buyAnalysis.slippagePercent) = some 0 ∧
    (MarketDepthAnalyzer.analyzeDepth MarketDepthAnalyzer.defaultCfg MarketDepthAnalyzer.bookC6 10).map
        (fun a => a.sellAnalysis.slippagePercent) = some 0 := by
  refine ⟨?_, ?_, ?_, ?_, ?_⟩ <;>
  norm_num [MarketDepthAnalyzer.analyzeDepth, MarketDepthAnalyzer.analyzeSide,
    MarketDepthAnalyzer.walkLoop, MarketDepthAnalyzer.isExecutableCheck,
    MarketDepthAnalyzer.bookC6, MarketDepthAnalyzer.defaultCfg, dMin, dMax]

/-- Claim C6 as amended: for a book with nonnegative level sizes and a
nonnegative target, the analysis reports the order executable if and only if
both sides can absorb the full target AND each side's slippage-in-percent
value is at most the raw `maxSlippage` value 3/1000 (i.e. realized slippage
at most 0.003 percent, not 0.3 percent) AND each side's total cost divided by
the target amount is at most `maxImpact` = 1/10. -/
theorem depth_isExecutable_characterization (bids asks : List (ℚ × ℚ)) (target : ℚ)
    (a : MarketDepthAnalyzer.DepthAnalysis)
    (hbn : ∀ p ∈ bids, 0 ≤ p.2) (han : ∀ p ∈ asks, 0 ≤ p.2) (ht : 0 ≤ target)
    (hres : MarketDepthAnalyzer.analyzeDepth MarketDepthAnalyzer.defaultCfg ⟨bids, asks⟩ target = some a) :
    a.isExecutable = true ↔
      (target ≤ MarketDepthAnalyzer.sumSizes bids ∧ target ≤ MarketDepthAnalyzer.sumSizes asks ∧
       a.buyAnalysis.slippagePercent ≤ 3/1000 ∧ a.sellAnalysis.slippagePercent ≤ 3/1000 ∧
       a.buyAnalysis.totalCost / target ≤ 1/10 ∧ a.sellAnalysis.totalCost / target ≤ 1/10) := by
  match bids, asks, hbn, han, hres with
  | [], _, _, _, hres => exact absurd hres (by simp [MarketDepthAnalyzer.analyzeDepth, MarketDepthAnalyzer.analyzeSide])
  | (b0 :: bs), [], _, _, hres => exact absurd hres (by simp [MarketDepthAnalyzer.analyzeDepth, MarketDepthAnalyzer.analyzeSide])
  | (b0 :: bs), (a0 :: as'), hbn, han, hres =>
    obtain ⟨bp0, bs0⟩ := b0
    obtain ⟨ap0, as0⟩ := a0
    simp only [MarketDepthAnalyzer.analyzeDepth, MarketDepthAnalyzer.analyzeSide] at hres
    injection hres with hres
    subst hres
    rw [MarketDepthAnalyzer.isExecutableCheck_iff]
    have hb := MarketDepthAnalyzer.walkLoop_remaining ((bp0, bs0) :: bs) hbn target 0 0 0 ht
    have hs := MarketDepthAnalyzer.walkLoop_remaining ((ap0, as0) :: as') han target 0 0 0 ht
    constructor
    · rintro ⟨h1, h2, h3, h4, h5, h6⟩
      refine ⟨?_, ?_, h3, h4, h5, h6⟩
      · rw [show (MarketDepthAnalyzer.walkLoop ((bp0, bs0) :: bs) (target, 0, 0, 0)).1 =
            dMax (target - MarketDepthAnalyzer.sumSizes ((bp0, bs0) :: bs)) 0 from hb,
          dMax_zero_nonpos_iff, sub_nonpos] at h1
        exact h1
      · rw [show (MarketDepthAnalyzer.walkLoop ((ap0, as0) :: as') (target, 0, 0, 0)).1 =
            dMax (target - MarketDepthAnalyzer.sumSizes ((ap0, as0) :: as')) 0 from hs,
          dMax_zero_nonpos_iff, sub_nonpos] at h2
        exact h2
    · rintro ⟨h1, h2, h3, h4, h5, h6⟩
      refine ⟨?_, ?_, h3, h4, h5, h6⟩
      · show (MarketDepthAnalyzer.walkLoop ((bp0, bs0) :: bs) (target, 0, 0, 0)).1 ≤ 0
        rw [hb, dMax_zero_nonpos_iff, sub_nonpos]
        exact h1
      · show (MarketDepthAnalyzer.walkLoop ((ap0, as0) :: as') (target, 0, 0, 0)).1 ≤ 0
        rw [hs, dMax_zero_nonpos_iff, sub_nonpos]
        exact h2

/-- Witness for the amended C6: on the cheap one-level book the analysis is
executable, derived from the characterization. -/
theorem depth_isExecutable_characterization_witness :
    MarketDepthAnalyzer.aW.isExecutable = true :=
  (depth_isExecutable_characterization MarketDepthAnalyzer.bookC6W.bids
      MarketDepthAnalyzer.bookC6W.asks 10 MarketDepthAnalyzer.aW
      (by intro p hp; simp [MarketDepthAnalyzer.bookC6W] at hp; rw [hp]; norm_num)
      (by intro p hp; simp [MarketDepthAnalyzer.bookC6W] at hp; rw [hp]; norm_num)
      (by norm_num)
      (by norm_num [MarketDepthAnalyzer.analyzeDepth, MarketDepthAnalyzer.analyzeSide,
        MarketDepthAnalyzer.walkLoop, MarketDepthAnalyzer.isExecutableCheck,
        MarketDepthAnalyzer.bookC6W, MarketDepthAnalyzer.defaultCfg, MarketDepthAnalyzer.aW,
        dMin, dMax])).mpr
    (by norm_num [MarketDepthAnalyzer.sumSizes, MarketDepthAnalyzer.bookC6W, MarketDepthAnalyzer.aW])

/-- Claim C3 as amended: when pre-trade validation passes, the buy placement
succeeds and the sell placement fails, the executor makes exactly one sell
attempt (no retries), cancels the buy order, records no position, and the
execution returns failure. -/
theorem executor_failed_sell_cancels_buy (env : TradeExecutor.Env)
    (opp : TradeExecutor.Opportunity) (o : TradeExecutor.Order)
    (hv : TradeExecutor.validatePricesCheck env opp = none)
    (hb : TradeExecutor.checkBalances env opp = true)
    (hbuy : env.createOrder (TradeExecutor.buyReq opp) = some o)
    (hsell : env.createOrder (TradeExecutor.sellReq opp) = none) :
    TradeExecutor.executeArbitrage false env opp =
      ⟨false, .sellFailedAfterBuy,
        [.placeOrder (TradeExecutor.buyReq opp), .placeOrder (TradeExecutor.sellReq opp),
         .cancelOrder o.id]⟩ ∧
    TradeExecutor.countSellPlacements (TradeExecutor.executeArbitrage false env opp).actions = 1 ∧
    TradeExecutor.countPositionRecords (TradeExecutor.executeArbitrage false env opp).actions = 0 := by
  have hmain : TradeExecutor.executeArbitrage false env opp =
      ⟨false, .sellFailedAfterBuy,
        [.placeOrder (TradeExecutor.buyReq opp), .placeOrder (TradeExecutor.sellReq opp),
         .cancelOrder o.id]⟩ := by
    simp only [TradeExecutor.executeArbitrage, hv, hb, hbuy, hsell]
    simp
  refine ⟨hmain, ?_, ?_⟩ <;>
  rw [hmain] <;>
  simp [TradeExecutor.countSellPlacements, TradeExecutor.countPositionRecords,
    TradeExecutor.buyReq, TradeExecutor.sellReq, List.filter]

/-- Counterexample for C3: in the concrete scenario where the buy order is
placed and every sell placement fails, the executor issues exactly one sell
attempt and zero position records; it cancels the buy instead of retrying the
sell or opening a position. -/
theorem executor_failed_sell_no_retry_cex :
    TradeExecutor.executeArbitrage false TradeExecutor.env3 TradeExecutor.opp3 =
      ⟨false, .sellFailedAfterBuy,
        [.placeOrder (TradeExecutor.buyReq TradeExecutor.opp3),
         .placeOrder (TradeExecutor.sellReq TradeExecutor.opp3),
         .cancelOrder TradeExecutor.buyId3]⟩ ∧
    TradeExecutor.countSellPlacements
      (TradeExecutor.executeArbitrage false TradeExecutor.env3 TradeExecutor.opp3).actions = 1 ∧
    TradeExecutor.countPositionRecords
      (TradeExecutor.executeArbitrage false TradeExecutor.env3 TradeExecutor.opp3).actions = 0 := by
  have hmain : TradeExecutor.executeArbitrage false TradeExecutor.env3 TradeExecutor.opp3 =
      ⟨false, .sellFailedAfterBuy,
        [.placeOrder (TradeExecutor.buyReq TradeExecutor.opp3),
         .placeOrder (TradeExecutor.sellReq TradeExecutor.opp3),
         .cancelOrder TradeExecutor.buyId3]⟩ := by
    norm_num [TradeExecutor.executeArbitrage, TradeExecutor.validatePricesCheck,
      TradeExecutor.checkBalances, TradeExecutor.buyReq, TradeExecutor.sellReq,
      TradeExecutor.env3, TradeExecutor.opp3, TradeExecutor.exA3, TradeExecutor.exB3,
      TradeExecutor.buyId3, TradeExecutor.maxSlippagePercent, TradeExecutor.minProfitPercent,
      dAbs, show (('b' : Char) = 'a') = False from by decide,
      show (TradeExecutor.OrderSide.sell = TradeExecutor.OrderSide.buy) = False from by decide]
  refine ⟨hmain, ?_, ?_⟩ <;>
  rw [hmain] <;>
  simp [TradeExecutor.countSellPlacements, TradeExecutor.countPositionRecords,
    TradeExecutor.buyReq, TradeExecutor.sellReq, List.filter]

/-- A single scheduler step preserves the mutual-exclusion invariant. -/
theorem TradeExecutor.schedStep_inv (s : TradeExecutor.SchedState)
    (e : TradeExecutor.SchedEvent) (h1 : s.active ≤ 1)
    (h2 : s.isExecuting = true ↔ s.active = 1) :
    (TradeExecutor.schedStep s e).1.active ≤ 1 ∧
    ((TradeExecutor.schedStep s e).1.isExecuting = true ↔
      (TradeExecutor.schedStep s e).1.active = 1) := by
  cases e with
  | invoke env opp =>
    simp only [TradeExecutor.schedStep]
    by_cases hb : s.isExecuting = true
    · rw [if_pos hb]
      exact ⟨h1, h2⟩
    · rw [if_neg hb]
      have hne : ¬ s.active = 1 := fun hc => hb (h2.mpr hc)
      have h0 : s.active = 0 := by omega
      refine ⟨?_, ?_, ?_⟩
      · show s.active + 1 ≤ 1
        omega
      · intro _
        show s.active + 1 = 1
        omega
      · intro _
        rfl
  | complete =>
    simp only [TradeExecutor.schedStep]
    refine ⟨?_, ?_, ?_⟩
    · show s.active - 1 ≤ 1
      omega
    · intro hfalse
      exact absurd hfalse (by simp)
    · intro hc
      exact absurd hc (by omega)

/-- The scheduler invariant holds along any event sequence. -/
theorem TradeExecutor.schedFold_inv (es : List TradeExecutor.SchedEvent) :
    ∀ s : TradeExecutor.SchedState, s.active ≤ 1 → (s.isExecuting = true ↔ s.active = 1) →
    (es.foldl (fun s e => (TradeExecutor.schedStep s e).1) s).active ≤ 1 := by
  induction es with
  | nil =>
    intro s h1 h2
    simpa using h1
  | cons e rest ih =>
    intro s h1 h2
    rw [List.foldl_cons]
    obtain ⟨h1', h2'⟩ := TradeExecutor.schedStep_inv s e h1 h2
    exact ih _ h1' h2'

/-- Claim C8: a call arriving while the executor flag is set returns failure
immediately with no order-manager actions (the "already in progress" exit),
the scheduler drops such an invoke with exactly that result, and along every
event-loop interleaving at most one execution is ever active. -/
theorem executor_busy_and_serialized :
    (∀ (env : TradeExecutor.Env) (opp : TradeExecutor.Opportunity),
      TradeExecutor.executeArbitrage true env opp = ⟨false, .busy, []⟩) ∧
    (∀ (s : TradeExecutor.SchedState) (env : TradeExecutor.Env)
        (opp : TradeExecutor.Opportunity), s.isExecuting = true →
      TradeExecutor.schedStep s (.invoke env opp) = (s, some ⟨false, .busy, []⟩)) ∧
    (∀ es : List TradeExecutor.SchedEvent, (TradeExecutor.schedRun es).active ≤ 1) := by
  refine ⟨?_, ?_, ?_⟩
  · intro env opp
    rfl
  · intro s env opp h
    simp only [TradeExecutor.schedStep]
    rw [if_pos h, h]
    rfl
  · intro es
    exact TradeExecutor.schedFold_inv es TradeExecutor.initSched (by norm_num [TradeExecutor.initSched])
      (by simp [TradeExecutor.initSched])

/-- Witness for C8: a scheduler state with a running execution drops an
incoming invoke with the busy result and no actions. -/
theorem executor_busy_and_serialized_witness :
    TradeExecutor.schedStep ⟨true, 1⟩ (.invoke TradeExecutor.env3 TradeExecutor.opp3) =
      (⟨true, 1⟩, some ⟨false, .busy, []⟩) :=
  executor_busy_and_serialized.2.1 ⟨true, 1⟩ TradeExecutor.env3 TradeExecutor.opp3 rfl

/-- Witness for the amended C3: the hypotheses hold in the concrete
failing-sell scenario, and the theorem yields the exact result there. -/
theorem executor_failed_sell_cancels_buy_witness :
    TradeExecutor.executeArbitrage false TradeExecutor.env3 TradeExecutor.opp3 =
      ⟨false, .sellFailedAfterBuy,
        [.placeOrder (TradeExecutor.buyReq TradeExecutor.opp3),
         .placeOrder (TradeExecutor.sellReq TradeExecutor.opp3),
         .cancelOrder (TradeExecutor.Order.mk TradeExecutor.buyId3).id]⟩ :=
  (executor_failed_sell_cancels_buy TradeExecutor.env3 TradeExecutor.opp3 ⟨TradeExecutor.buyId3⟩
    (by norm_num [TradeExecutor.validatePricesCheck, TradeExecutor.env3, TradeExecutor.opp3,
      TradeExecutor.exA3, TradeExecutor.exB3, TradeExecutor.maxSlippagePercent,
      TradeExecutor.minProfitPercent, dAbs,
      show (('b' : Char) = 'a') = False from by decide])
    (by norm_num [TradeExecutor.checkBalances, TradeExecutor.env3, TradeExecutor.opp3])
    (by norm_num [TradeExecutor.buyReq, TradeExecutor.env3, TradeExecutor.opp3,
      TradeExecutor.exA3, TradeExecutor.buyId3])
    (by norm_num [TradeExecutor.sellReq, TradeExecutor.env3, TradeExecutor.opp3,
      TradeExecutor.exB3,
      show (TradeExecutor.OrderSide.sell = TradeExecutor.OrderSide.buy) = False from by decide])).1

/-- Claim C9: with the default configuration, when the deviation and
freshness checks pass, a price exactly equal to `maxPrice` is accepted, a
price exactly equal to `minPrice` is accepted, and any price strictly greater
than `maxPrice` is rejected. -/
theorem price_validator_maxPrice_boundary (st : PriceValidator.VState)
    (ctx : PriceValidator.Ctx) (now : Nat) (p : ℚ)
    (hdevMax : PriceValidator.withinDeviation PriceValidator.defaultCfg
      PriceValidator.defaultCfg.maxPrice ctx.recentPrices = true)
    (hdevMin : PriceValidator.withinDeviation PriceValidator.defaultCfg
      PriceValidator.defaultCfg.minPrice ctx.recentPrices = true)
    (hfresh : PriceValidator.freshnessOk PriceValidator.defaultCfg ctx now = true)
    (hp : PriceValidator.defaultCfg.maxPrice < p) :
    (PriceValidator.validatePrice PriceValidator.defaultCfg st
      (.num PriceValidator.defaultCfg.maxPrice) ctx now).1 = true ∧
    (PriceValidator.validatePrice PriceValidator.defaultCfg st
      (.num PriceValidator.defaultCfg.minPrice) ctx now).1 = true ∧
    (PriceValidator.validatePrice PriceValidator.defaultCfg st
      (.num p) ctx now).1 = false := by
  simp only [show PriceValidator.defaultCfg.maxPrice = (1000000 : ℚ) from rfl,
    show PriceValidator.defaultCfg.minPrice = (1/100000 : ℚ) from rfl] at hdevMax hdevMin hp ⊢
  refine ⟨?_, ?_, ?_⟩
  · norm_num [PriceValidator.validatePrice, PriceValidator.toDecimal,
      PriceValidator.Dec.isPositive, PriceValidator.Dec.isFinite, PriceValidator.withinRange,
      hdevMax, hfresh,
      show PriceValidator.defaultCfg.minPrice = (1/100000 : ℚ) from rfl,
      show PriceValidator.defaultCfg.maxPrice = (1000000 : ℚ) from rfl]
  · norm_num [PriceValidator.validatePrice, PriceValidator.toDecimal,
      PriceValidator.Dec.isPositive, PriceValidator.Dec.isFinite, PriceValidator.withinRange,
      hdevMin, hfresh,
      show PriceValidator.defaultCfg.minPrice = (1/100000 : ℚ) from rfl,
      show PriceValidator.defaultCfg.maxPrice = (1000000 : ℚ) from rfl]
  · have hple : ¬ (p ≤ 1000000) := not_le.mpr hp
    norm_num [PriceValidator.validatePrice, PriceValidator.toDecimal,
      PriceValidator.Dec.isPositive, PriceValidator.Dec.isFinite, PriceValidator.withinRange,
      hple,
      show PriceValidator.defaultCfg.minPrice = (1/100000 : ℚ) from rfl,
      show PriceValidator.defaultCfg.maxPrice = (1000000 : ℚ) from rfl]

/-- Witness for C9: with the empty context (no recent prices, no timestamp)
the other checks pass, the boundary prices are accepted and 1000001 is
rejected. -/
theorem price_validator_maxPrice_boundary_witness :
    (PriceValidator.validatePrice PriceValidator.defaultCfg PriceValidator.initVState
      (.num PriceValidator.defaultCfg.maxPrice) PriceValidator.emptyCtx 0).1 = true ∧
    (PriceValidator.validatePrice PriceValidator.defaultCfg PriceValidator.initVState
      (.num PriceValidator.defaultCfg.minPrice) PriceValidator.emptyCtx 0).1 = true ∧
    (PriceValidator.validatePrice PriceValidator.defaultCfg PriceValidator.initVState
      (.num 1000001) PriceValidator.emptyCtx 0).1 = false :=
  price_validator_maxPrice_boundary PriceValidator.initVState PriceValidator.emptyCtx 0 1000001
    (by norm_num [PriceValidator.withinDeviation, PriceValidator.emptyCtx])
    (by norm_num [PriceValidator.withinDeviation, PriceValidator.emptyCtx])
    (by norm_num [PriceValidator.freshnessOk, PriceValidator.emptyCtx])
    (by norm_num [show PriceValidator.defaultCfg.maxPrice = (1000000 : ℚ) from rfl])

/-- Claim C10: with the default configuration, `validatePrice` maps every
malformed input (non-numeric, NaN, infinite, zero or negative) to `false`
without touching the price history; totality of this function is the model of
"never throws" (each throwing sub-step is a caught `Except` branch). -/
theorem price_validator_rejects_malformed (st : PriceValidator.VState)
    (v : PriceValidator.JsVal) (ctx : PriceValidator.Ctx) (now : Nat)
    (h : PriceValidator.malformedInput v = true) :
    PriceValidator.validatePrice PriceValidator.defaultCfg st v ctx now = (false, st) := by
  cases v with
  | num q =>
    have hq : q ≤ 0 := by simpa [PriceValidator.malformedInput] using h
    by_cases h0 : (0:ℚ) ≤ q
    · have hq0 : q = 0 := le_antisymm hq h0
      subst hq0
      norm_num [PriceValidator.validatePrice, PriceValidator.toDecimal,
        PriceValidator.Dec.isPositive, PriceValidator.Dec.isFinite, PriceValidator.withinRange,
        show PriceValidator.defaultCfg.minPrice = (1/100000 : ℚ) from rfl]
    · norm_num [PriceValidator.validatePrice, PriceValidator.toDecimal,
        PriceValidator.Dec.isPositive, PriceValidator.Dec.isFinite, h0]
  | numStr q =>
    have hq : q ≤ 0 := by simpa [PriceValidator.malformedInput] using h
    by_cases h0 : (0:ℚ) ≤ q
    · have hq0 : q = 0 := le_antisymm hq h0
      subst hq0
      norm_num [PriceValidator.validatePrice, PriceValidator.toDecimal,
        PriceValidator.Dec.isPositive, PriceValidator.Dec.isFinite, PriceValidator.withinRange,
        show PriceValidator.defaultCfg.minPrice = (1/100000 : ℚ) from rfl]
    · norm_num [PriceValidator.validatePrice, PriceValidator.toDecimal,
        PriceValidator.Dec.isPositive, PriceValidator.Dec.isFinite, h0]
  | nan =>
    simp [PriceValidator.validatePrice, PriceValidator.toDecimal,
      PriceValidator.Dec.isPositive, PriceValidator.Dec.isFinite]
  | inf positive =>
    simp [PriceValidator.validatePrice, PriceValidator.toDecimal,
      PriceValidator.Dec.isPositive, PriceValidator.Dec.isFinite]
  | badStr =>
    simp [PriceValidator.validatePrice, PriceValidator.toDecimal]
  | nullV =>
    simp [PriceValidator.validatePrice, PriceValidator.toDecimal]
  | undef =>
    simp [PriceValidator.validatePrice, PriceValidator.toDecimal]
  | other =>
    simp [PriceValidator.validatePrice, PriceValidator.toDecimal]

/-- Witness for C10: NaN is rejected with the state unchanged. -/
theorem price_validator_rejects_malformed_witness :
    PriceValidator.validatePrice PriceValidator.defaultCfg PriceValidator.initVState
      .nan PriceValidator.emptyCtx 0 = (false, PriceValidator.initVState) :=
  price_validator_rejects_malformed PriceValidator.initVState .nan PriceValidator.emptyCtx 0 rfl
